import Mathlib

/-!
Verification development for `scripts/generate_and_post.js` of the
crypto-poster repository.

The script is a single-file pipeline: it resolves configured handles to
user ids, fetches recent tweets, reconstructs threads by conversation id,
dedupes via a SQLite table keyed by a SHA-256 fingerprint, generates a
caption (OpenAI or a fixed fallback), and posts the unit to X, retrying
network calls with exponential backoff.

This file shallowly embeds the data model and the functions of that script
(`sha256`, `withRetry`, `fetchConversation`, `generateCaption`, `postTweet`,
and the orchestration loop of `main`) as executable Lean definitions, and
proves or refutes the frozen claims about them.  External effects (HTTP
responses, thrown network errors, OpenAI replies) are parameters of the
embedding: each publish call consults an environment `Nat → PublishOutcome`
indexed by a global call counter, mirroring the strictly sequential awaits
of the script.
-/

namespace CryptoPoster

/-! ## SHA-256

Model of node `crypto.createHash('sha256').update(s).digest('hex')` as used
by the script function `sha256` (line 43).  Implemented over `Nat` with
explicit reduction mod 2^32, structurally recursive so that the kernel can
evaluate concrete digests. -/

/-- Reduce a natural number to a 32-bit word. -/
def w32 (n : Nat) : Nat := n % 4294967296

/-- Rotate a 32-bit word right by `n` bits (for 1 ≤ n ≤ 31). -/
def rotr (n x : Nat) : Nat := (x >>> n) ||| ((x <<< (32 - n)) % 4294967296)

/-- Logical right shift. -/
def shr (n x : Nat) : Nat := x >>> n

/-- Bitwise complement of a 32-bit word. -/
def compl32 (x : Nat) : Nat := x ^^^ 4294967295

/-- SHA-256 choice function. -/
def ch (x y z : Nat) : Nat := (x &&& y) ^^^ (compl32 x &&& z)

/-- SHA-256 majority function. -/
def maj (x y z : Nat) : Nat := (x &&& y) ^^^ (x &&& z) ^^^ (y &&& z)

/-- Big sigma-0 of SHA-256. -/
def bsig0 (x : Nat) : Nat := rotr 2 x ^^^ rotr 13 x ^^^ rotr 22 x

/-- Big sigma-1 of SHA-256. -/
def bsig1 (x : Nat) : Nat := rotr 6 x ^^^ rotr 11 x ^^^ rotr 25 x

/-- Small sigma-0 of SHA-256. -/
def ssig0 (x : Nat) : Nat := rotr 7 x ^^^ rotr 18 x ^^^ shr 3 x

/-- Small sigma-1 of SHA-256. -/
def ssig1 (x : Nat) : Nat := rotr 17 x ^^^ rotr 19 x ^^^ shr 10 x

/-- The 64 SHA-256 round constants, in decimal. -/
def K64 : List Nat :=
  [1116352408, 1899447441, 3049323471, 3921009573, 961987163,
   1508970993, 2453635748, 2870763221, 3624381080, 310598401,
   607225278, 1426881987, 1925078388, 2162078206, 2614888103,
   3248222580, 3835390401, 4022224774, 264347078, 604807628,
   770255983, 1249150122, 1555081692, 1996064986, 2554220882,
   2821834349, 2952996808, 3210313671, 3336571891, 3584528711,
   113926993, 338241895, 666307205, 773529912, 1294757372,
   1396182291, 1695183700, 1986661051, 2177026350, 2456956037,
   2730485921, 2820302411, 3259730800, 3345764771, 3516065817,
   3600352804, 4094571909, 275423344, 430227734, 506948616,
   659060556, 883997877, 958139571, 1322822218, 1537002063,
   1747873779, 1955562222, 2024104815, 2227730452, 2361852424,
   2428436474, 2756734187, 3204031479, 3329325298]

/-- The SHA-256 initial hash value, in decimal. -/
def H0 : List Nat :=
  [1779033703, 3144134277, 1013904242, 2773480762, 1359893119,
   2600822924, 528734635, 1541459225]

/-- Extend a 16-word block by `n` further schedule words. -/
def scheduleGo (w : List Nat) : Nat → List Nat
  | 0 => w
  | n + 1 =>
    let t := w.length
    let x := w32 (ssig1 (w.getD (t - 2) 0) + w.getD (t - 7) 0 +
                  ssig0 (w.getD (t - 15) 0) + w.getD (t - 16) 0)
    scheduleGo (w ++ [x]) n

/-- The 64-word message schedule of one block. -/
def schedule (block : List Nat) : List Nat := scheduleGo block 48

/-- One SHA-256 compression round on the state `[a,b,c,d,e,f,g,h]`. -/
def compressRound (kt wt : Nat) (s : List Nat) : List Nat :=
  match s with
  | [a, b, c, d, e, f, g, h] =>
    let t1 := w32 (h + bsig1 e + ch e f g + kt + wt)
    let t2 := w32 (bsig0 a + maj a b c)
    [w32 (t1 + t2), a, b, c, w32 (d + t1), e, f, g]
  | s => s

/-- Compress one 16-word block into the running hash. -/
def compressBlock (hs block : List Nat) : List Nat :=
  let final := (K64.zip (schedule block)).foldl (fun s kw => compressRound kw.1 kw.2 s) hs
  (hs.zip final).map (fun p => w32 (p.1 + p.2))

/-- UTF-8 encoding of one character, as byte values. -/
def utf8Bytes (c : Char) : List Nat :=
  let n := c.toNat
  if n < 128 then [n]
  else if n < 2048 then [192 + n / 64, 128 + n % 64]
  else if n < 65536 then [224 + n / 4096, 128 + n / 64 % 64, 128 + n % 64]
  else [240 + n / 262144, 128 + n / 4096 % 64, 128 + n / 64 % 64, 128 + n % 64]

/-- UTF-8 bytes of a string. -/
def strBytes (s : String) : List Nat :=
  s.data.foldr (fun c acc => utf8Bytes c ++ acc) []

/-- SHA-256 padding: append 0x80, zeros to 56 mod 64, then the 64-bit big-endian bit length. -/
def padBytes (msg : List Nat) : List Nat :=
  let L := msg.length
  let zeros := List.replicate ((119 - L % 64) % 64) 0
  let lenBytes := (List.range 8).map (fun i => ((8 * L) >>> (8 * (7 - i))) % 256)
  msg ++ [128] ++ zeros ++ lenBytes

/-- Split a byte list into chunks of 64, with an explicit fuel bound for structural recursion. -/
def chunksGo : Nat → List Nat → List (List Nat)
  | 0, _ => []
  | _, [] => []
  | fuel + 1, l => l.take 64 :: chunksGo fuel (l.drop 64)

/-- Split a byte list into chunks of 64 bytes. -/
def chunks64 (l : List Nat) : List (List Nat) := chunksGo l.length l

/-- Decode a 64-byte chunk as 16 big-endian 32-bit words. -/
def wordsOfChunk (chunk : List Nat) : List Nat :=
  (List.range 16).map (fun j =>
    chunk.getD (4 * j) 0 * 16777216 + chunk.getD (4 * j + 1) 0 * 65536 +
    chunk.getD (4 * j + 2) 0 * 256 + chunk.getD (4 * j + 3) 0)

/-- Hexadecimal digit for a value below 16. -/
def hexDigit (n : Nat) : Char :=
  if n < 10 then Char.ofNat (48 + n) else Char.ofNat (87 + n)

/-- Lowercase 8-digit hexadecimal rendering of a 32-bit word. -/
def wordHex (w : Nat) : List Char :=
  (List.range 8).map (fun i => hexDigit (w >>> (4 * (7 - i)) % 16))

/-- SHA-256 hex digest of a string, as `crypto.createHash('sha256').update(s).digest('hex')`. -/
def sha256 (s : String) : String :=
  let blocks := (chunks64 (padBytes (strBytes s))).map wordsOfChunk
  let hs := blocks.foldl compressBlock H0
  ⟨(hs.map wordHex).foldr (· ++ ·) []⟩

/-! ## Data model

A fetched tweet, as consumed by the script: the fields requested at line 81
(`conversation_id,created_at,referenced_tweets,attachments,author_id`) plus
`id` and `text`.  `created_at` is modelled as the numeric timestamp that
`new Date(x)` yields in the sort comparator. -/

/-- A RemoteItem of the pipeline: one fetched tweet. -/
structure Tweet where
  id : String
  text : String
  created_at : Nat
  conversation_id : String
  author_id : String
  hasAttachments : Bool
deriving DecidableEq, Repr

/-- Character-level prefix of a string, modelling JavaScript `s.slice(0, n)`. -/
def strTake (s : String) (n : Nat) : String := ⟨s.data.take n⟩

/-- Strip one leading at-sign, modelling `handle.replace(/^@/, '')`. -/
def stripAt (h : String) : String :=
  match h.data with
  | '@' :: rest => ⟨rest⟩
  | _ => h

/-- Ensure a leading at-sign, modelling `handle.startsWith('@') ? handle : '@' + handle`. -/
def withAt (h : String) : String :=
  match h.data with
  | '@' :: _ => h
  | _ => "@" ++ h

/-- The dedupe key string of a tweet: `t.id + '|' + content.slice(0,300)` (line 189). -/
def uniqueKey (t : Tweet) : String := t.id ++ "|" ++ strTake t.text 300

/-- The dedupe fingerprint of a tweet: `sha256(uniqueKey)` (line 190). -/
def fingerprint (t : Tweet) : String := sha256 (uniqueKey t)

/-! ## Thread reconstruction -/

/-- Model of `fetchConversation` (lines 88-94): fetch the recent tweets of the
user (the `batch` parameter stands for the `data` of that fetch; a failed or
empty fetch is the empty list) and keep those of the wanted conversation. -/
def fetchConversation (batch : List Tweet) (conversationId : String) : List Tweet :=
  batch.filter (fun tw => tw.conversation_id == conversationId)

/-- Comparator relation of the sort at line 200: ascending `created_at`. -/
def byCreated (a b : Tweet) : Prop := a.created_at ≤ b.created_at

instance : DecidableRel byCreated := fun a b => Nat.decLe a.created_at b.created_at

instance : IsTotal Tweet byCreated := ⟨fun a b => Nat.le_total a.created_at b.created_at⟩

instance : IsTrans Tweet byCreated := ⟨fun _ _ _ => Nat.le_trans⟩

/-- Model of `convo.sort((a,b) => new Date(a.created_at) - new Date(b.created_at))`:
`Array.prototype.sort` is stable (ES2019), and a stable ascending sort is
extensionally the insertion sort with the non-strict comparator. -/
def sortByCreatedAt (l : List Tweet) : List Tweet := List.insertionSort byCreated l

/-- Model of the thread-reconstruction block of `main` (lines 195-203): keep the
seed alone unless it belongs to a conversation other than itself and the
conversation fetch yields more than one tweet, in which case sort that set by
ascending `created_at`. -/
def reconstructThread (convoBatch : List Tweet) (t : Tweet) : List Tweet :=
  if t.conversation_id ≠ "" ∧ t.conversation_id ≠ t.id then
    let convo := fetchConversation convoBatch t.conversation_id
    if 1 < convo.length then sortByCreatedAt convo else [t]
  else [t]

/-! ## Retry helper -/

/-- Result of the `withRetry` loop: a value, a propagated exception, or the
JavaScript `undefined` that the function returns when `attempts ≤ 0`. -/
inductive RetryResult (E A : Type) where
  | ok (a : A)
  | err (e : E)
  | undef
deriving DecidableEq, Repr

/-- Loop body of `withRetry` (lines 53-65).  `f n` is the outcome of the call
made when `attempt = n`; `fuel` equals `attempts - attempt` so that the
recursion is structural.  The returned list records the arguments of the
`sleep` calls, in order. -/
def withRetryGo {E A : Type} (f : Nat → Except E A) (attempts baseMs : Nat) :
    Nat → Nat → List Nat → RetryResult E A × List Nat
  | _, 0, sleeps => (.undef, sleeps)
  | attempt, fuel + 1, sleeps =>
    match f attempt with
    | .ok a => (.ok a, sleeps)
    | .error e =>
      let wait := baseMs * 2 ^ (attempt + 1)
      if attempts ≤ attempt + 1 then (.err e, sleeps)
      else withRetryGo f attempts baseMs (attempt + 1) fuel (sleeps ++ [wait])

/-- Model of `withRetry(fn, attempts, baseMs)` (lines 53-65), also returning the
trace of back-off delays slept between attempts. -/
def withRetry {E A : Type} (f : Nat → Except E A) (attempts baseMs : Nat) :
    RetryResult E A × List Nat :=
  withRetryGo f attempts baseMs 0 attempts []

/-! ## Caption generation -/

/-- Outcome of the OpenAI chat-completions call made by `generateCaption`:
either the whole call threw, or it produced a parsed response whose
`choices[0].message.content` is the given optional string. -/
inductive OpenAiResult where
  | threw
  | response (msg : Option String)
deriving DecidableEq, Repr

/-- Model of `generateCaption(text, handle)` (lines 97-117).  `openaiKey` is the
`OPENAI_KEY` environment value (`null` when unset); `api` is the outcome of
the external call, consulted only when a key is present. -/
def generateCaption (openaiKey : Option String) (api : OpenAiResult)
    (text handle : String) : String :=
  match openaiKey with
  | none => "ðŸ”¥ " ++ handle ++ " update â€” check this out! ðŸš€ #Crypto"
  | some _ =>
    match api with
    | .threw => "ðŸ”¥ " ++ handle ++ " update â€” check it out! ðŸš€"
    | .response msg =>
      let fb := "ðŸ”¥ " ++ handle ++ " update â€” check it out! ðŸš€"
      (match msg with
       | some m => if m = "" then fb else m
       | none => fb).trim

/-! ## Publishing and the orchestrator loop

Each publish call consults an environment `Nat → PublishOutcome` indexed by a
global call counter (the script awaits calls strictly sequentially). -/

/-- One call to `postTweet` as observed at the Publish API boundary. -/
structure PublishCall where
  text : String
  media_ids : List String
  reply_to : Option String
deriving DecidableEq, Repr

/-- Outcome of one `postTweet` call: a response whose JSON carries `data.id`,
a response without it (for instance an error body on a non-ok status, which
`postTweet` still returns), or an exception propagating out of `withRetry`
after exhausting its attempts. -/
inductive PublishOutcome where
  | ok (id : String)
  | okNoId
  | thrown
deriving DecidableEq, Repr

/-- Run state threaded through the orchestrator: the publish-call counter, the
trace of publish calls, the keys of the `posted` table, and the trace of
`sleep` arguments. -/
structure RunState where
  nextCall : Nat
  calls : List PublishCall
  db : List String
  sleeps : List Nat
deriving DecidableEq, Repr

/-- The initial run state: fresh counter and traces, empty `posted` table. -/
def runState0 : RunState := ⟨0, [], [], []⟩

/-- Model of `postTweet(text, media_ids, in_reply_to_id)` (lines 149-163): the
call is recorded, then the environment decides whether it returns a body
(with or without `data.id`) or throws out of `withRetry`. -/
def postTweet (env : Nat → PublishOutcome) (st : RunState) (text : String)
    (media_ids : List String) (reply_to : Option String) :
    Except RunState (Option String × RunState) :=
  let st' : RunState :=
    { st with nextCall := st.nextCall + 1, calls := st.calls ++ [⟨text, media_ids, reply_to⟩] }
  match env st.nextCall with
  | .thrown => .error st'
  | .ok i => .ok (some i, st')
  | .okNoId => .ok (none, st')

/-- Model of the reply loop of `main` (lines 229-235): every tweet of the
reconstructed unit is posted, truncated to 270 characters, replying to the
head id, with `sleep(1200)` after each reply. -/
def postReplies (env : Nat → PublishOutcome) (postedId : String) :
    List Tweet → RunState → Except RunState RunState
  | [], st => .ok st
  | tw :: rest, st =>
    match postTweet env st (strTake tw.text 270) [] (some postedId) with
    | .error st' => .error st'
    | .ok (_, st') => postReplies env postedId rest { st' with sleeps := st'.sleeps ++ [1200] }

/-- Model of the publish section of the per-tweet loop of `main` (lines
195-237): reconstruct the unit, then either post one repost tweet (length-1
unit, line 220) or post the thread head and, when the head response carried
an id, reply every tweet of the unit to that head id (lines 225-236).
`captionOf` stands for `generateCaption(content, handleWithAt)`. -/
def publishUnit (env : Nat → PublishOutcome) (captionOf : String → String)
    (handle handleWithAt : String) (convoBatch : List Tweet)
    (st : RunState) (t : Tweet) : Except RunState RunState :=
  let threadTweets := reconstructThread convoBatch t
  let media_ids : List String := []
  let caption := captionOf t.text
  if threadTweets.length = 1 then
    match postTweet env st
        (caption ++ "\n\nðŸ” Original: https://twitter.com/" ++ stripAt handle
          ++ "/status/" ++ t.id) media_ids none with
    | .error st' => .error st'
    | .ok (_, st') => .ok st'
  else
    match postTweet env st (caption ++ "\n\nðŸ” Thread by " ++ handleWithAt)
        media_ids none with
    | .error st' => .error st'
    | .ok (some postedId, st') => postReplies env postedId threadTweets st'
    | .ok (none, st') => .ok st'

/-- Model of the body of the per-tweet loop of `main` (lines 187-240) for one
tweet `t`: skip when the fingerprint is already recorded, else publish the
unit and record the fingerprint.  An `Except.error` is an exception
propagating to the project-level catch; its payload is the state at the
moment of the throw.  The duplicate-key branch of the final INSERT models
the SQLite primary-key constraint rejection (unreachable in flow because of
the preceding existence check). -/
def processItem (env : Nat → PublishOutcome) (captionOf : String → String)
    (handle handleWithAt : String) (convoBatch : List Tweet)
    (st : RunState) (t : Tweet) : Except RunState RunState :=
  let hash := fingerprint t
  if hash ∈ st.db then .ok st
  else
    match publishUnit env captionOf handle handleWithAt convoBatch st t with
    | .error st' => .error st'
    | .ok stP =>
      if hash ∈ stP.db then .error stP
      else .ok { stP with db := stP.db ++ [hash], sleeps := stP.sleeps ++ [1500] }

/-- Model of the per-tweet loop of `main`: process tweets in order; an
exception aborts the loop (it is caught only at the project boundary).  The
Boolean records whether the loop was aborted by an exception. -/
def processItems (env : Nat → PublishOutcome) (captionOf : String → String)
    (handle handleWithAt : String) (convoBatch : List Tweet) :
    RunState → List Tweet → RunState × Bool
  | st, [] => (st, false)
  | st, t :: rest =>
    match processItem env captionOf handle handleWithAt convoBatch st t with
    | .error st' => (st', true)
    | .ok st' => processItems env captionOf handle handleWithAt convoBatch st' rest

/-- A configured source, one entry of `projects.json`. -/
structure Project where
  name : String
  handle : Option String
deriving DecidableEq, Repr

/-- Model of `p.name.replace(regex, empty).toLowerCase()` with the whitespace regex. -/
def defaultHandle (name : String) : String :=
  ⟨(name.data.filter (fun c => !c.isWhitespace)).map Char.toLower⟩

/-- Model of `p.handle || lowercased-despaced name` (line 171),
including the JavaScript falsiness of an empty handle. -/
def projectHandle (p : Project) : String :=
  match p.handle with
  | some h => if h = "" then defaultHandle p.name else h
  | none => defaultHandle p.name

/-- External world consulted per source: `resolveId` models
`resolveUserIdByHandle` (`none` on failure), `timeline` models the `data` of
`fetchTweetsForUser(userId, 8)` (`none` when the fetch failed or the response
had no data), and `convoBatch` models the `data` of the
`fetchTweetsForUser(userId, 50)` consulted by `fetchConversation`. -/
structure SourceEnv where
  resolveId : String → Option String
  timeline : String → Option (List Tweet)
  convoBatch : String → List Tweet

/-- Model of the body of the per-project loop of `main` (lines 169-245),
including its catch: the Boolean records whether an exception was caught at
this project boundary.  Tweets are processed oldest first
(`timeline.data.slice().reverse()`, line 186). -/
def processProject (senv : SourceEnv) (env : Nat → PublishOutcome)
    (captionOf : String → String) (st : RunState) (p : Project) : RunState × Bool :=
  let handle := projectHandle p
  let handleWithAt := withAt handle
  match senv.resolveId handleWithAt with
  | none => (st, false)
  | some userId =>
    match senv.timeline userId with
    | none => (st, false)
    | some data =>
      if data.length = 0 then (st, false)
      else processItems env captionOf handle handleWithAt (senv.convoBatch userId) st data.reverse

/-- Model of the project loop of `main`: projects are processed in
configuration order; a caught exception in one project does not stop the
loop.  The Boolean records whether any project caught an exception. -/
def processProjects (senv : SourceEnv) (env : Nat → PublishOutcome)
    (captionOf : String → String) : RunState → List Project → RunState × Bool
  | st, [] => (st, false)
  | st, p :: ps =>
    let r := processProject senv env captionOf st p
    let r' := processProjects senv env captionOf r.1 ps
    (r'.1, r.2 || r'.2)

/-- State carried by an item-processing result, whether it returned normally
or threw. -/
def resultState : Except RunState RunState → RunState
  | .ok st => st
  | .error st => st

/-- Check that every recorded publish call carries an empty media list. -/
def noMedia (st : RunState) : Bool := st.calls.all (fun c => c.media_ids.isEmpty)

/-! ## The posted table

Model of the dedupe store set up by `setupDb` (lines 45-50):
`CREATE TABLE IF NOT EXISTS posted (id TEXT PRIMARY KEY, created_at TEXT,
project TEXT)`, written by the plain INSERT of line 239. -/

/-- One row of the `posted` table. -/
structure PostedRow where
  id : String
  created_at : String
  project : String
deriving DecidableEq, Repr

/-- Model of the existence check `SELECT id FROM posted WHERE id = ?`. -/
def postedHas (tbl : List PostedRow) (key : String) : Bool :=
  tbl.any (fun r => r.id == key)

/-- Model of the `db.run` INSERT INTO posted of line 239, with columns
(id, created_at, project), against the primary-key schema: a plain INSERT whose key already
exists fails with a uniqueness-constraint violation (the promise rejects),
otherwise the row is appended. -/
def postedInsert (tbl : List PostedRow) (key created_at project : String) :
    Except String (List PostedRow) :=
  if tbl.any (fun r => r.id == key) then
    .error "UNIQUE constraint failed: posted.id"
  else .ok (tbl ++ [⟨key, created_at, project⟩])

/-! ## Concrete fixtures

Small concrete inputs used by counterexamples and witnesses. -/

/-- A thread tweet: first of conversation `c`. -/
def tw1 : Tweet := ⟨"1", "first tweet", 10, "c", "u1", false⟩

/-- A thread tweet: second of conversation `c`. -/
def tw2 : Tweet := ⟨"2", "second tweet", 20, "c", "u1", false⟩

/-- A thread tweet: third of conversation `c`. -/
def tw3 : Tweet := ⟨"3", "third tweet", 30, "c", "u1", false⟩

/-- A standalone tweet (its conversation id is its own id). -/
def solo1 : Tweet := ⟨"s1", "solo one", 10, "s1", "u1", false⟩

/-- A second standalone tweet. -/
def solo2 : Tweet := ⟨"s2", "solo two", 20, "s2", "u1", false⟩

/-- A fetched batch holding the three-tweet conversation `c`. -/
def batchC3 : List Tweet := [tw1, tw2, tw3]

/-- Publish environment returning distinct ids per call. -/
def envC3 : Nat → PublishOutcome := fun n =>
  if n = 0 then .ok "H" else if n = 1 then .ok "R1" else if n = 2 then .ok "R2" else .ok "R3"

/-- A constant caption generator. -/
def capConst : String → String := fun _ => "cap"

/-- The run of `processItem` over the seed of the three-tweet conversation. -/
def c3run : Except RunState RunState :=
  processItem envC3 capConst "h" "@h" batchC3 runState0 tw1

/-- Tie-break fixture: id `a`, same `created_at` as `tbC4`. -/
def taC4 : Tweet := ⟨"a", "ta", 5, "c2", "u1", false⟩

/-- Tie-break fixture: id `b`, listed before `taC4` in the fetched batch. -/
def tbC4 : Tweet := ⟨"b", "tb", 5, "c2", "u1", false⟩

/-- A fetched batch with two equal-timestamp tweets of conversation `c2`,
id `b` first. -/
def batchC4 : List Tweet := [tbC4, taC4]

/-- Thread-ordering fixture with `created_at` 12. -/
def twW1 : Tweet := ⟨"w1", "x", 12, "c1", "u1", false⟩

/-- Thread-ordering fixture with `created_at` 10. -/
def twW2 : Tweet := ⟨"w2", "y", 10, "c1", "u1", false⟩

/-- Thread-ordering fixture with `created_at` 11. -/
def twW3 : Tweet := ⟨"w3", "z", 11, "c1", "u1", false⟩

/-- A fetched batch with conversation `c1` in order [12, 10, 11]. -/
def batchC4W : List Tweet := [twW1, twW2, twW3]

/-- Publish environment whose every call succeeds with id `X`. -/
def envOkX : Nat → PublishOutcome := fun _ => .ok "X"

/-- Publish environment whose every call throws out of `withRetry`. -/
def envThrown : Nat → PublishOutcome := fun _ => .thrown

/-- Final state of a completed first run over two standalone tweets. -/
def c5st1 : RunState :=
  (processItems envOkX capConst "h" "@h" [] runState0 [solo1, solo2]).1

/-- Final state of a run whose first publish call throws. -/
def c6state : RunState :=
  (processItems envThrown capConst "h" "@h" [] runState0 [solo1, solo2]).1

/-- A configured project with handle `h`. -/
def pW : Project := ⟨"Proj", some "h"⟩

/-- Source environment resolving every handle to user `U` whose timeline is
the single standalone tweet. -/
def senvW : SourceEnv := ⟨fun _ => some "U", fun _ => some [solo1], fun _ => []⟩

/-- A third standalone tweet. -/
def solo3 : Tweet := ⟨"s3", "solo three", 30, "s3", "u1", false⟩

/-- Publish environment whose first call succeeds and whose later calls
throw out of `withRetry`. -/
def envC6W : Nat → PublishOutcome := fun n => if n = 0 then .ok "X" else .thrown

/-- Source environment resolving every handle to user `U` whose timeline is
three standalone tweets, most recent first. -/
def senvW2 : SourceEnv := ⟨fun _ => some "U", fun _ => some [solo3, solo2, solo1], fun _ => []⟩

/-- State after the successfully processed one-item prefix of the C6 witness
run: the oldest tweet was published and recorded. -/
def c6wSt1 : RunState :=
  (processItems envC6W capConst (projectHandle pW) (withAt (projectHandle pW))
    (senvW2.convoBatch "U") runState0 [solo1]).1

/-- State at the throw at the SECOND processed item of the C6 witness run. -/
def c6wErr2 : RunState :=
  resultState (processItem envC6W capConst (projectHandle pW)
    (withAt (projectHandle pW)) (senvW2.convoBatch "U") c6wSt1 solo2)

/-! ## Helper lemmas -/

/-- Concatenation with a non-empty first part is non-empty. -/
theorem append3_ne_empty (pre mid post : String) (hpre : pre.data ≠ []) :
    pre ++ mid ++ post ≠ "" := by
  intro h
  have hd : (pre ++ mid ++ post).data = [] := by rw [h]
  rw [String.data_append, String.data_append] at hd
  rcases List.append_eq_nil.mp hd with ⟨h1, _⟩
  rcases List.append_eq_nil.mp h1 with ⟨h2, _⟩
  exact hpre h2

/-! ## Claim C8: retry back-off shape -/

/-- C8: when every attempt of a `withRetry` call configured with 4 attempts
and base delay 1000 fails, the delays slept between consecutive attempts are
1000·2^1, 1000·2^2, 1000·2^3 in that order, and the error of the fourth attempt
propagates to the caller with no further delay or attempt. -/
theorem withRetry_backoff {E A : Type} (f : Nat → Except E A) (errs : Nat → E)
    (hf : ∀ n, f n = .error (errs n)) :
    withRetry f 4 1000 = (.err (errs 3), [2000, 4000, 8000]) := by
  simp [withRetry, withRetryGo, hf]

/-- Witness for C8 at a concrete always-failing function. -/
theorem withRetry_backoff_witness :
    withRetry (fun n => (Except.error n : Except Nat Unit)) 4 1000 =
      (.err 3, [2000, 4000, 8000]) :=
  withRetry_backoff (fun n => Except.error n) (fun n => n) (fun _ => rfl)

/-! ## Claim C9: caption fallback -/

/-- C9: when the OpenAI credential is missing or the chat-completions call
throws, `generateCaption` returns, without raising, a non-empty string that
contains the supplied display handle. -/
theorem generateCaption_fallback (openaiKey : Option String) (api : OpenAiResult)
    (text handle : String) (h : openaiKey = none ∨ api = .threw) :
    generateCaption openaiKey api text handle ≠ "" ∧
    ∃ pre post, generateCaption openaiKey api text handle = pre ++ handle ++ post := by
  cases openaiKey with
  | none =>
    refine ⟨?_, "ðŸ”¥ ", " update â€” check this out! ðŸš€ #Crypto", rfl⟩
    exact append3_ne_empty "ðŸ”¥ " handle " update â€” check this out! ðŸš€ #Crypto" (by decide)
  | some k =>
    rcases h with h | h
    · exact absurd h (by simp)
    · subst h
      refine ⟨?_, "ðŸ”¥ ", " update â€” check it out! ðŸš€", rfl⟩
      exact append3_ne_empty "ðŸ”¥ " handle " update â€” check it out! ðŸš€" (by decide)

/-- Witness for C9 at a concrete missing credential and thrown call. -/
theorem generateCaption_fallback_witness :
    generateCaption none .threw "t" "@x" ≠ "" ∧
    ∃ pre post, generateCaption none .threw "t" "@x" = pre ++ "@x" ++ post :=
  generateCaption_fallback none .threw "t" "@x" (Or.inl rfl)

/-! ## Claim C7: fingerprint formula -/

/-- C7 counterexample: the dedupe key joins id and text with the separator
`|`, not `:`, so the fingerprint differs from `sha256(id + ':' + text[:300])`
already at id `a`, text `b`. -/
theorem fingerprint_separator_counterexample :
    fingerprint ⟨"a", "b", 0, "", "", false⟩ ≠ sha256 ("a" ++ ":" ++ strTake "b" 300) ∧
    fingerprint ⟨"a", "b", 0, "", "", false⟩ = sha256 ("a" ++ "|" ++ strTake "b" 300) :=
  ⟨by decide, rfl⟩

/-- C7 amended: the dedupe fingerprint equals `sha256(id + '|' + text[:300])`;
it is a pure function of the item id and the first 300 characters of the item
text, so changing any other field leaves the key unchanged. -/
theorem fingerprint_pure (t t' : Tweet) (hid : t.id = t'.id)
    (htext : strTake t.text 300 = strTake t'.text 300) :
    fingerprint t = sha256 (t.id ++ "|" ++ strTake t.text 300) ∧
    fingerprint t = fingerprint t' := by
  refine ⟨rfl, ?_⟩
  unfold fingerprint uniqueKey
  rw [hid, htext]

/-- Witness for C7 amended: two tweets equal in id and text but different in
every other field share the fingerprint. -/
theorem fingerprint_pure_witness :
    fingerprint ⟨"a", "b", 0, "", "", false⟩ = sha256 ("a" ++ "|" ++ strTake "b" 300) ∧
    fingerprint ⟨"a", "b", 0, "", "", false⟩ = fingerprint ⟨"a", "b", 99, "zz", "q", true⟩ :=
  fingerprint_pure ⟨"a", "b", 0, "", "", false⟩ ⟨"a", "b", 99, "zz", "q", true⟩ rfl rfl

/-! ## Claim C2: record idempotence -/

/-- C2 counterexample: recording the same key twice does error, because the
store writes with a plain INSERT into a primary-key column: the second call
fails with a uniqueness-constraint violation. -/
theorem postedInsert_twice_errors :
    ((postedInsert [] "k" "t0" "p").bind fun tbl => postedInsert tbl "k" "t1" "p") =
      .error "UNIQUE constraint failed: posted.id" := rfl

/-- C2 amended: recording a fresh key succeeds; recording the same key again
errors with a uniqueness-constraint violation and leaves exactly one visible
entry for the key (the key column is primary, so no duplicate row appears;
the append is not idempotent). -/
theorem postedInsert_unique (tbl : List PostedRow) (k c p c' p' : String)
    (h : postedHas tbl k = false) :
    ∃ tbl', postedInsert tbl k c p = .ok tbl' ∧
      postedInsert tbl' k c' p' = .error "UNIQUE constraint failed: posted.id" ∧
      (tbl'.filter fun r => r.id == k).length = 1 := by
  have h' : (tbl.any fun r => r.id == k) = false := h
  refine ⟨tbl ++ [⟨k, c, p⟩], ?_, ?_, ?_⟩
  · simp [postedInsert, h']
  · simp [postedInsert, List.any_append, h']
  · have hnil : (tbl.filter fun r => r.id == k) = [] := by
      rw [List.filter_eq_nil_iff]
      intro r hr
      exact (List.any_eq_false.mp h') r hr
    simp [List.filter_append, hnil]

/-- Witness for C2 amended at the empty table and key `k`. -/
theorem postedInsert_unique_witness :
    ∃ tbl', postedInsert [] "k" "c0" "p0" = .ok tbl' ∧
      postedInsert tbl' "k" "c1" "p1" = .error "UNIQUE constraint failed: posted.id" ∧
      (tbl'.filter fun r => r.id == "k").length = 1 :=
  postedInsert_unique [] "k" "c0" "p0" "c1" "p1" rfl

/-! ## Claim C4: reconstruction order and tie-break -/

/-- Filtering an ordered insertion on an exact timestamp prepends the inserted
element exactly when it carries that timestamp. -/
theorem filter_orderedInsert_key (k : Nat) (x : Tweet) (l : List Tweet) :
    (List.orderedInsert byCreated x l).filter (fun y => y.created_at == k) =
      if x.created_at == k then x :: l.filter (fun y => y.created_at == k)
      else l.filter (fun y => y.created_at == k) := by
  induction l with
  | nil => simp [List.orderedInsert, List.filter_cons]
  | cons b l ih =>
    by_cases hb : byCreated x b
    · rw [show List.orderedInsert byCreated x (b :: l) = x :: b :: l from by
        simp [List.orderedInsert, hb]]
      rw [List.filter_cons]
    · have hlt : b.created_at < x.created_at := Nat.lt_of_not_le hb
      rw [show List.orderedInsert byCreated x (b :: l) = b :: List.orderedInsert byCreated x l from by
        simp [List.orderedInsert, hb]]
      rw [List.filter_cons, List.filter_cons, ih]
      by_cases hxk : x.created_at = k
      · have hbk : ¬ b.created_at = k := by omega
        simp [hxk, hbk]
      · simp [hxk]

/-- The stable sort of the reconstruction preserves, timestamp by timestamp,
the original relative order of the batch. -/
theorem filter_insertionSort_key (k : Nat) (l : List Tweet) :
    (List.insertionSort byCreated l).filter (fun y => y.created_at == k) =
      l.filter (fun y => y.created_at == k) := by
  induction l with
  | nil => rfl
  | cons x l ih =>
    rw [List.insertionSort, filter_orderedInsert_key, ih, List.filter_cons]

/-- C4 counterexample: two tweets of conversation `c2` with identical
`created_at` and ids `b`, `a` fetched in that order reconstruct as
`["b", "a"]`, not in ascending id order `["a", "b"]`: the sort has no id
tie-break. -/
theorem reconstruct_tiebreak_counterexample :
    (reconstructThread batchC4 tbC4).map (fun t => t.id) = ["b", "a"] ∧
    tbC4.created_at = taC4.created_at ∧ taC4.id.data < tbC4.id.data ∧
    reconstructThread batchC4 tbC4 ≠ [taC4, tbC4] := by decide

/-- C4 amended: a reconstructed multi-tweet unit is a permutation of the
batch tweets of the conversation of the seed, sorted ascending by `created_at`;
tweets with equal `created_at` keep the relative order of the fetched batch
(the sort is stable), which makes reconstruction deterministic in the batch
order but is not an id tie-break. -/
theorem reconstruct_sorted_stable (batch : List Tweet) (t : Tweet)
    (h1 : t.conversation_id ≠ "") (h2 : t.conversation_id ≠ t.id)
    (h3 : 1 < (fetchConversation batch t.conversation_id).length) :
    (reconstructThread batch t).Perm (fetchConversation batch t.conversation_id) ∧
    (reconstructThread batch t).Sorted byCreated ∧
    ∀ k, (reconstructThread batch t).filter (fun y => y.created_at == k) =
      (fetchConversation batch t.conversation_id).filter (fun y => y.created_at == k) := by
  have hr : reconstructThread batch t =
      sortByCreatedAt (fetchConversation batch t.conversation_id) := by
    simp [reconstructThread, h1, h2, h3]
  rw [hr]
  exact ⟨List.perm_insertionSort byCreated _, List.sorted_insertionSort byCreated _,
    fun k => filter_insertionSort_key k _⟩

/-- Witness for C4 amended at the batch [12, 10, 11] of conversation `c1`. -/
theorem reconstruct_sorted_stable_witness :
    (reconstructThread batchC4W twW1).Perm (fetchConversation batchC4W "c1") ∧
    (reconstructThread batchC4W twW1).Sorted byCreated ∧
    ∀ k, (reconstructThread batchC4W twW1).filter (fun y => y.created_at == k) =
      (fetchConversation batchC4W "c1").filter (fun y => y.created_at == k) :=
  reconstruct_sorted_stable batchC4W twW1 (by decide) (by decide) (by decide)

/-! ## Claim C3: thread publish shape -/

/-- Trace of the reply loop when no reply call throws: one call per tweet of
the unit, in order, text truncated at 270 characters, every call replying to
the head id, with a 1200 ms sleep after each call. -/
theorem postReplies_ok (env : Nat → PublishOutcome) (pid : String) :
    ∀ (l : List Tweet) (st : RunState),
      (∀ k, k < l.length → env (st.nextCall + k) ≠ .thrown) →
      postReplies env pid l st =
        .ok { nextCall := st.nextCall + l.length,
              calls := st.calls ++ l.map (fun tw => ⟨strTake tw.text 270, [], some pid⟩),
              db := st.db,
              sleeps := st.sleeps ++ List.replicate l.length 1200 } := by
  intro l
  induction l with
  | nil => intro st _; simp [postReplies]
  | cons tw rest ih =>
    intro st h
    have h0 : env (st.nextCall) ≠ .thrown := by
      have := h 0 (by simp)
      simpa using this
    unfold postReplies
    cases henv : env st.nextCall with
    | thrown => exact absurd henv h0
    | ok i =>
      simp only [postTweet, henv]
      rw [ih]
      · simp [List.replicate_succ, Nat.add_assoc, Nat.add_comm 1 rest.length]
      · intro k hk
        have := h (k + 1) (by simpa using Nat.succ_lt_succ hk)
        simpa [Nat.add_assoc, Nat.add_comm 1 k] using this
    | okNoId =>
      simp only [postTweet, henv]
      rw [ih]
      · simp [List.replicate_succ, Nat.add_assoc, Nat.add_comm 1 rest.length]
      · intro k hk
        have := h (k + 1) (by simpa using Nat.succ_lt_succ hk)
        simpa [Nat.add_assoc, Nat.add_comm 1 k] using this

/-- C3 counterexample: a reconstructed unit of three tweets is published with
FOUR calls (one head plus one reply per unit tweet, the head tweet included),
and every reply targets the head id `H`, not the id returned by the
immediately preceding call. -/
theorem thread_publish_counterexample :
    c3run.isOk = true ∧
    (reconstructThread batchC3 tw1).length = 3 ∧
    (resultState c3run).calls.length = 4 ∧
    (resultState c3run).calls.map (fun c => c.reply_to) =
      [none, some "H", some "H", some "H"] := by
  refine ⟨rfl, rfl, ?_, ?_⟩ <;> rfl

/-- C3 amended: a unit of length greater than one is published as one head
call carrying the caption text and no reply target, then one call for EVERY
tweet of the unit (the head tweet included) in unit order, text truncated at
270 characters, each reply targeting the id returned by the HEAD call, with
a fixed 1200 ms pacing delay after every reply and 1500 ms after recording. -/
theorem thread_publish_shape (env : Nat → PublishOutcome) (captionOf : String → String)
    (handle handleWithAt : String) (convoBatch : List Tweet) (st : RunState) (t : Tweet)
    (l : List Tweet) (hid : String)
    (hnew : fingerprint t ∉ st.db)
    (hl : reconstructThread convoBatch t = l)
    (hlen : l.length ≠ 1)
    (hhead : env st.nextCall = .ok hid)
    (hrep : ∀ k, k < l.length → env (st.nextCall + 1 + k) ≠ .thrown) :
    processItem env captionOf handle handleWithAt convoBatch st t =
      .ok { nextCall := st.nextCall + 1 + l.length,
            calls := st.calls ++
              (⟨captionOf t.text ++ "\n\nðŸ” Thread by " ++ handleWithAt, [], none⟩ ::
                l.map (fun tw => ⟨strTake tw.text 270, [], some hid⟩)),
            db := st.db ++ [fingerprint t],
            sleeps := st.sleeps ++ (List.replicate l.length 1200 ++ [1500]) } := by
  have hpub : publishUnit env captionOf handle handleWithAt convoBatch st t =
      .ok { nextCall := st.nextCall + 1 + l.length,
            calls := st.calls ++
              (⟨captionOf t.text ++ "\n\nðŸ” Thread by " ++ handleWithAt, [], none⟩ ::
                l.map (fun tw => ⟨strTake tw.text 270, [], some hid⟩)),
            db := st.db,
            sleeps := st.sleeps ++ List.replicate l.length 1200 } := by
    unfold publishUnit
    rw [hl]
    rw [if_neg hlen]
    simp only [postTweet, hhead]
    rw [postReplies_ok]
    · simp [List.append_assoc]
    · intro k hk
      simpa using hrep k hk
  simp only [processItem]
  rw [if_neg hnew, hpub]
  simp [hnew, List.append_assoc]

/-- Witness for C3 amended at the three-tweet conversation `c`. -/
theorem thread_publish_shape_witness :
    processItem envC3 capConst "h" "@h" batchC3 runState0 tw1 =
      .ok { nextCall := 0 + 1 + (reconstructThread batchC3 tw1).length,
            calls := runState0.calls ++
              (⟨capConst tw1.text ++ "\n\nðŸ” Thread by " ++ "@h", [], none⟩ ::
                (reconstructThread batchC3 tw1).map
                  (fun tw => ⟨strTake tw.text 270, [], some "H"⟩)),
            db := runState0.db ++ [fingerprint tw1],
            sleeps := runState0.sleeps ++
              (List.replicate (reconstructThread batchC3 tw1).length 1200 ++ [1500]) } :=
  thread_publish_shape envC3 capConst "h" "@h" batchC3 runState0 tw1
    (reconstructThread batchC3 tw1) "H" (by decide) rfl (by decide) rfl (by decide)

/-! ## Store-preservation lemmas -/

/-- The reply loop never touches the dedupe store, whether it returns or
throws. -/
theorem postReplies_db (env : Nat → PublishOutcome) (pid : String) :
    ∀ (l : List Tweet) (st : RunState),
      (resultState (postReplies env pid l st)).db = st.db := by
  intro l
  induction l with
  | nil => intro st; rfl
  | cons tw rest ih =>
    intro st
    unfold postReplies
    simp only [postTweet]
    cases env st.nextCall with
    | thrown => rfl
    | ok i => exact ih _
    | okNoId => exact ih _

/-- Publishing a unit never touches the dedupe store, whether it returns or
throws. -/
theorem publishUnit_db (env : Nat → PublishOutcome) (captionOf : String → String)
    (handle handleWithAt : String) (convoBatch : List Tweet) (st : RunState) (t : Tweet) :
    (resultState (publishUnit env captionOf handle handleWithAt convoBatch st t)).db = st.db := by
  unfold publishUnit
  by_cases hlen : (reconstructThread convoBatch t).length = 1
  · simp only [if_pos hlen, postTweet]
    cases env st.nextCall <;> rfl
  · simp only [if_neg hlen, postTweet]
    cases env st.nextCall with
    | thrown => rfl
    | ok i => exact postReplies_db env i _ _
    | okNoId => rfl

/-- An exception thrown while processing one item leaves the dedupe store
unchanged. -/
theorem processItem_error_db (env : Nat → PublishOutcome) (captionOf : String → String)
    (handle handleWithAt : String) (convoBatch : List Tweet) (st : RunState) (t : Tweet)
    (st' : RunState)
    (h : processItem env captionOf handle handleWithAt convoBatch st t = .error st') :
    st'.db = st.db := by
  have hdb := publishUnit_db env captionOf handle handleWithAt convoBatch st t
  simp only [processItem] at h
  split at h
  · cases h
  · split at h
    next stE hpub =>
      cases h
      rw [hpub] at hdb
      exact hdb
    next stP hpub =>
      rw [hpub] at hdb
      split at h
      · cases h
        exact hdb
      · cases h

/-- A normally returning item step extends the dedupe store by a suffix. -/
theorem processItem_ok_db (env : Nat → PublishOutcome) (captionOf : String → String)
    (handle handleWithAt : String) (convoBatch : List Tweet) (st : RunState) (t : Tweet)
    (st' : RunState)
    (h : processItem env captionOf handle handleWithAt convoBatch st t = .ok st') :
    ∃ tail, st'.db = st.db ++ tail := by
  have hdb := publishUnit_db env captionOf handle handleWithAt convoBatch st t
  simp only [processItem] at h
  split at h
  · cases h
    exact ⟨[], by simp⟩
  · split at h
    next stE hpub => cases h
    next stP hpub =>
      rw [hpub] at hdb
      split at h
      · cases h
      · cases h
        have hdb' : stP.db = st.db := hdb
        exact ⟨[fingerprint t], by simp [hdb']⟩

/-- A normally returning item step ends with the fingerprint of the item in the
store. -/
theorem processItem_ok_mem (env : Nat → PublishOutcome) (captionOf : String → String)
    (handle handleWithAt : String) (convoBatch : List Tweet) (st : RunState) (t : Tweet)
    (st' : RunState)
    (h : processItem env captionOf handle handleWithAt convoBatch st t = .ok st') :
    fingerprint t ∈ st'.db := by
  simp only [processItem] at h
  split at h
  next hmem =>
    cases h
    exact hmem
  next hmem =>
    split at h
    next stE hpub => cases h
    next stP hpub =>
      split at h
      · cases h
      · cases h
        simp

/-- An item whose fingerprint is already stored is skipped unchanged. -/
theorem processItem_skip (env : Nat → PublishOutcome) (captionOf : String → String)
    (handle handleWithAt : String) (convoBatch : List Tweet) (st : RunState) (t : Tweet)
    (hmem : fingerprint t ∈ st.db) :
    processItem env captionOf handle handleWithAt convoBatch st t = .ok st := by
  simp [processItem, hmem]

/-- The item loop only ever extends the dedupe store. -/
theorem processItems_db_extend (env : Nat → PublishOutcome) (captionOf : String → String)
    (handle handleWithAt : String) (convoBatch : List Tweet) :
    ∀ (ts : List Tweet) (st : RunState),
      ∃ tail, (processItems env captionOf handle handleWithAt convoBatch st ts).1.db =
        st.db ++ tail := by
  intro ts
  induction ts with
  | nil => intro st; exact ⟨[], by simp [processItems]⟩
  | cons t rest ih =>
    intro st
    unfold processItems
    cases hpi : processItem env captionOf handle handleWithAt convoBatch st t with
    | error st' =>
      exact ⟨[], by
        simp [processItem_error_db env captionOf handle handleWithAt convoBatch st t st' hpi]⟩
    | ok st' =>
      obtain ⟨tl1, h1⟩ :=
        processItem_ok_db env captionOf handle handleWithAt convoBatch st t st' hpi
      obtain ⟨tl2, h2⟩ := ih st'
      exact ⟨tl1 ++ tl2, by rw [h2, h1, List.append_assoc]⟩

/-- After an item loop that completed without an exception, the fingerprint of every
processed tweet is in the store. -/
theorem processItems_complete_mem (env : Nat → PublishOutcome) (captionOf : String → String)
    (handle handleWithAt : String) (convoBatch : List Tweet) :
    ∀ (ts : List Tweet) (st st' : RunState),
      processItems env captionOf handle handleWithAt convoBatch st ts = (st', false) →
      ∀ t ∈ ts, fingerprint t ∈ st'.db := by
  intro ts
  induction ts with
  | nil =>
    intro st st' _ t ht
    cases ht
  | cons t rest ih =>
    intro st st' hrun u hu
    unfold processItems at hrun
    split at hrun
    next stE hpi => simp at hrun
    next st1 hpi =>
      rcases List.mem_cons.mp hu with rfl | hu
      · obtain ⟨tail, htail⟩ :=
          processItems_db_extend env captionOf handle handleWithAt convoBatch rest st1
        rw [hrun] at htail
        simp at htail
        rw [htail]
        exact List.mem_append_left _
          (processItem_ok_mem env captionOf handle handleWithAt convoBatch st u st1 hpi)
      · exact ih st1 st' hrun u hu

/-- An item loop over tweets whose fingerprints are all already stored is the
identity: no publish call is issued and the state is unchanged. -/
theorem processItems_all_seen (env : Nat → PublishOutcome) (captionOf : String → String)
    (handle handleWithAt : String) (convoBatch : List Tweet) :
    ∀ (ts : List Tweet) (st : RunState),
      (∀ t ∈ ts, fingerprint t ∈ st.db) →
      processItems env captionOf handle handleWithAt convoBatch st ts = (st, false) := by
  intro ts
  induction ts with
  | nil => intro st _; rfl
  | cons t rest ih =>
    intro st hall
    unfold processItems
    rw [processItem_skip env captionOf handle handleWithAt convoBatch st t
      (hall t (List.mem_cons_self t rest))]
    exact ih st (fun u hu => hall u (List.mem_cons_of_mem _ hu))

/-! ## Claim C1: head failure records nothing -/

/-- C1: when the head publish of a unit throws (its `withRetry` exhausted, first
publish call of the unit), the processing of the item raises, the dedupe store
is unchanged, and the fingerprint of the unit is not recorded, leaving it eligible
for retry on the next run. -/
theorem head_failure_no_fingerprint (env : Nat → PublishOutcome)
    (captionOf : String → String) (handle handleWithAt : String)
    (convoBatch : List Tweet) (st : RunState) (t : Tweet)
    (hnew : fingerprint t ∉ st.db) (hthrow : env st.nextCall = .thrown) :
    ∃ st', processItem env captionOf handle handleWithAt convoBatch st t = .error st' ∧
      st'.db = st.db ∧ fingerprint t ∉ st'.db := by
  by_cases hlen : (reconstructThread convoBatch t).length = 1
  · refine ⟨{ st with
        nextCall := st.nextCall + 1,
        calls := st.calls ++ [⟨captionOf t.text ++ "\n\nðŸ” Original: https://twitter.com/"
          ++ stripAt handle ++ "/status/" ++ t.id, [], none⟩] },
      ?_, rfl, hnew⟩
    simp [processItem, publishUnit, hnew, hlen, postTweet, hthrow]
  · refine ⟨{ st with
        nextCall := st.nextCall + 1,
        calls := st.calls ++ [⟨captionOf t.text ++ "\n\nðŸ” Thread by " ++ handleWithAt,
          [], none⟩] },
      ?_, rfl, hnew⟩
    simp [processItem, publishUnit, hnew, hlen, postTweet, hthrow]

/-- Witness for C1 at a standalone tweet whose only publish call throws. -/
theorem head_failure_no_fingerprint_witness :
    ∃ st', processItem envThrown capConst "h" "@h" [] runState0 solo1 = .error st' ∧
      st'.db = runState0.db ∧ fingerprint solo1 ∉ st'.db :=
  head_failure_no_fingerprint envThrown capConst "h" "@h" [] runState0 solo1
    (by decide) rfl

/-! ## Claim C5: second-run idempotence -/

/-- C5: after a first item-loop run over a batch that completed without an
exception, a second run over the identical batch (any publish environment,
any captions) issues no publish call: every item is skipped as already seen
and the state is returned unchanged. -/
theorem run_idempotent (env1 env2 : Nat → PublishOutcome)
    (cap1 cap2 : String → String) (handle handleWithAt : String)
    (convoBatch : List Tweet) (st0 st1 : RunState) (ts : List Tweet)
    (h1 : processItems env1 cap1 handle handleWithAt convoBatch st0 ts = (st1, false)) :
    processItems env2 cap2 handle handleWithAt convoBatch st1 ts = (st1, false) :=
  processItems_all_seen env2 cap2 handle handleWithAt convoBatch ts st1
    (fun t ht =>
      processItems_complete_mem env1 cap1 handle handleWithAt convoBatch ts st0 st1 h1 t ht)

/-- Witness for C5: a completed two-tweet first run, then a second run that
changes nothing even against an environment whose every call would throw. -/
theorem run_idempotent_witness :
    processItems envThrown capConst "h" "@h" [] c5st1 [solo1, solo2] = (c5st1, false) :=
  run_idempotent envOkX envThrown capConst capConst "h" "@h" [] runState0 c5st1
    [solo1, solo2] rfl

/-! ## Claim C6: failure isolation granularity -/

/-- C6 counterexample: over a source with two standalone tweets, an exception
in the processing of the FIRST item aborts the loop: the run is flagged as thrown,
only the publish call of the first tweet was attempted, and nothing of the second
tweet was processed or recorded.  Processing does not continue with the next
item of the same source. -/
theorem item_exception_aborts_source :
    processItems envThrown capConst "h" "@h" [] runState0 [solo1, solo2] =
      (c6state, true) ∧
    c6state.calls.length = 1 ∧ c6state.db = [] ∧ fingerprint solo2 ∉ c6state.db := by
  refine ⟨rfl, rfl, rfl, ?_⟩
  rw [show c6state.db = [] from rfl]
  exact List.not_mem_nil _

/-- A cleanly processed item-loop prefix composes: running the loop over
`pre ++ ts` first runs `pre` to its final state, then continues with `ts`. -/
theorem processItems_append_clean (env : Nat → PublishOutcome)
    (captionOf : String → String) (handle handleWithAt : String)
    (convoBatch : List Tweet) :
    ∀ (pre : List Tweet) (st st1 : RunState),
      processItems env captionOf handle handleWithAt convoBatch st pre = (st1, false) →
      ∀ ts, processItems env captionOf handle handleWithAt convoBatch st (pre ++ ts) =
        processItems env captionOf handle handleWithAt convoBatch st1 ts := by
  intro pre
  induction pre with
  | nil =>
    intro st st1 h ts
    simp only [processItems] at h
    injection h with h1 h2
    subst h1
    rfl
  | cons q pre' ih =>
    intro st st1 h ts
    unfold processItems at h
    split at h
    next stE hpi =>
      simp at h
    next st2 hpi =>
      show (match processItem env captionOf handle handleWithAt convoBatch st q with
        | .error st'' => (st'', true)
        | .ok st'' =>
          processItems env captionOf handle handleWithAt convoBatch st'' (pre' ++ ts)) = _
      rw [hpi]
      exact ih st2 st1 h ts

/-- C6 amended: an exception raised while processing ANY item of a source,
after an arbitrary successfully processed prefix of that source, is caught at
the SOURCE boundary, not the item boundary: the remaining items of that
source are skipped (the loop of the source stops at the state of the throw),
and processing continues with the next source from that state. -/
theorem source_boundary_catch (senv : SourceEnv) (env : Nat → PublishOutcome)
    (cap : String → String) (st st1 st' : RunState) (p : Project) (ps : List Project)
    (uid : String) (data pre : List Tweet) (t : Tweet) (rest : List Tweet)
    (hres : senv.resolveId (withAt (projectHandle p)) = some uid)
    (htl : senv.timeline uid = some data)
    (hrev : data.reverse = pre ++ t :: rest)
    (hpre : processItems env cap (projectHandle p) (withAt (projectHandle p))
      (senv.convoBatch uid) st pre = (st1, false))
    (hthrow : processItem env cap (projectHandle p) (withAt (projectHandle p))
      (senv.convoBatch uid) st1 t = .error st') :
    (processProjects senv env cap st (p :: ps)).1 =
      (processProjects senv env cap st' ps).1 ∧
    (processProjects senv env cap st (p :: ps)).2 = true := by
  have hne : ¬ data.length = 0 := by
    intro h0
    have hlen := congrArg List.length hrev
    rw [List.length_reverse, h0, List.length_append, List.length_cons] at hlen
    omega
  have hproj : processProject senv env cap st p = (st', true) := by
    simp only [processProject, hres, htl, if_neg hne, hrev]
    rw [processItems_append_clean env cap (projectHandle p) (withAt (projectHandle p))
      (senv.convoBatch uid) pre st st1 hpre (t :: rest)]
    unfold processItems
    rw [hthrow]
  simp [processProjects, hproj]

/-- Witness for C6 amended: a three-tweet source whose SECOND processed item
throws after the first was published and recorded; the third item is skipped
and the next configured project is still processed from the throw state. -/
theorem source_boundary_catch_witness :
    (processProjects senvW2 envC6W capConst runState0 (pW :: [pW])).1 =
      (processProjects senvW2 envC6W capConst c6wErr2 [pW]).1 ∧
    (processProjects senvW2 envC6W capConst runState0 (pW :: [pW])).2 = true :=
  source_boundary_catch senvW2 envC6W capConst runState0 c6wSt1 c6wErr2 pW [pW] "U"
    [solo3, solo2, solo1] [solo1] solo2 [solo3] rfl rfl rfl rfl rfl

/-! ## Claim C10: no media ever published -/

/-- Appending one media-free call preserves the no-media invariant. -/
theorem all_isEmpty_append_one {calls : List PublishCall} {c : PublishCall}
    (h : calls.all (fun c => c.media_ids.isEmpty) = true) (hc : c.media_ids = []) :
    (calls ++ [c]).all (fun c => c.media_ids.isEmpty) = true := by
  simp [List.all_append, h, hc]

/-- The reply loop only issues media-free calls. -/
theorem postReplies_noMedia (env : Nat → PublishOutcome) (pid : String) :
    ∀ (l : List Tweet) (st : RunState), noMedia st = true →
      noMedia (resultState (postReplies env pid l st)) = true := by
  intro l
  induction l with
  | nil => intro st h; exact h
  | cons tw rest ih =>
    intro st h
    have hst' : noMedia { st with
        nextCall := st.nextCall + 1,
        calls := st.calls ++ [⟨strTake tw.text 270, [], some pid⟩] } = true :=
      all_isEmpty_append_one h rfl
    unfold postReplies
    simp only [postTweet]
    cases env st.nextCall with
    | thrown => exact hst'
    | ok i => exact ih _ hst'
    | okNoId => exact ih _ hst'

/-- Publishing a unit only issues media-free calls. -/
theorem publishUnit_noMedia (env : Nat → PublishOutcome) (captionOf : String → String)
    (handle handleWithAt : String) (convoBatch : List Tweet) (st : RunState) (t : Tweet)
    (h : noMedia st = true) :
    noMedia (resultState (publishUnit env captionOf handle handleWithAt convoBatch st t)) =
      true := by
  unfold publishUnit
  by_cases hlen : (reconstructThread convoBatch t).length = 1
  · simp only [if_pos hlen, postTweet]
    cases env st.nextCall <;> exact all_isEmpty_append_one h rfl
  · simp only [if_neg hlen, postTweet]
    cases env st.nextCall with
    | thrown => exact all_isEmpty_append_one h rfl
    | ok i => exact postReplies_noMedia env i _ _ (all_isEmpty_append_one h rfl)
    | okNoId => exact all_isEmpty_append_one h rfl

/-- One item step only issues media-free calls. -/
theorem processItem_noMedia (env : Nat → PublishOutcome) (captionOf : String → String)
    (handle handleWithAt : String) (convoBatch : List Tweet) (st : RunState) (t : Tweet)
    (h : noMedia st = true) :
    noMedia (resultState (processItem env captionOf handle handleWithAt convoBatch st t)) =
      true := by
  have hpub := publishUnit_noMedia env captionOf handle handleWithAt convoBatch st t h
  simp only [processItem]
  split
  · exact h
  · split
    next stE heq =>
      rw [heq] at hpub
      exact hpub
    next stP heq =>
      rw [heq] at hpub
      split
      · exact hpub
      · exact hpub

/-- The item loop only issues media-free calls, whether or not it aborts. -/
theorem processItems_noMedia (env : Nat → PublishOutcome) (captionOf : String → String)
    (handle handleWithAt : String) (convoBatch : List Tweet) :
    ∀ (ts : List Tweet) (st : RunState), noMedia st = true →
      noMedia (processItems env captionOf handle handleWithAt convoBatch st ts).1 = true := by
  intro ts
  induction ts with
  | nil => intro st h; exact h
  | cons t rest ih =>
    intro st h
    have hi := processItem_noMedia env captionOf handle handleWithAt convoBatch st t h
    unfold processItems
    cases hpi : processItem env captionOf handle handleWithAt convoBatch st t with
    | error stE =>
      rw [hpi] at hi
      exact hi
    | ok st1 =>
      rw [hpi] at hi
      exact ih st1 hi

/-- One project only issues media-free calls. -/
theorem processProject_noMedia (senv : SourceEnv) (env : Nat → PublishOutcome)
    (cap : String → String) (st : RunState) (p : Project) (h : noMedia st = true) :
    noMedia (processProject senv env cap st p).1 = true := by
  cases hres : senv.resolveId (withAt (projectHandle p)) with
  | none =>
    simp only [processProject, hres]
    exact h
  | some uid =>
    cases htl : senv.timeline uid with
    | none =>
      simp only [processProject, hres, htl]
      exact h
    | some data =>
      by_cases h0 : data.length = 0
      · simp only [processProject, hres, htl, if_pos h0]
        exact h
      · simp only [processProject, hres, htl, if_neg h0]
        exact processItems_noMedia env cap (projectHandle p) (withAt (projectHandle p))
          (senv.convoBatch uid) data.reverse st h

/-- C10: every publish call issued by the orchestrator carries an empty
media-identifier list: the attachments branch of `main` only logs, so no
published item (single repost, thread head, or reply) ever includes media. -/
theorem orchestrator_no_media (senv : SourceEnv) (env : Nat → PublishOutcome)
    (cap : String → String) :
    ∀ (ps : List Project) (st : RunState), noMedia st = true →
      noMedia (processProjects senv env cap st ps).1 = true := by
  intro ps
  induction ps with
  | nil => intro st h; exact h
  | cons p rest ih =>
    intro st h
    unfold processProjects
    exact ih _ (processProject_noMedia senv env cap st p h)

/-- Witness for C10: a full run over one project with a successful publish
environment issues only media-free calls. -/
theorem orchestrator_no_media_witness :
    noMedia (processProjects senvW envOkX capConst runState0 [pW]).1 = true :=
  orchestrator_no_media senvW envOkX capConst [pW] runState0 rfl

end CryptoPoster
